/-
Verification of the windowing / measurement / scroll-compensation core of
the VirtualList component (packages/ui/src/lib/components/VirtualList.svelte).

The TypeScript code is shallowly embedded: JS sparse arrays (with holes)
become lists of optional naturals, pixel quantities become naturals (heights)
or integers (scroll offsets, which the code compares against differences),
the DOM is an oracle (Env) supplying rendered-element client heights, and
each stateful function becomes a function from component state to component
state.  The async loops of the source (which await one render tick per step)
are embedded as structurally recursive functions; an early JS return caused
by a vanished element is a (state, false) result.
-/
import Mathlib

namespace VirtualList

/-- A JS array of numbers that may contain holes: entry i is none when
a[i] is undefined (a hole or out of bounds). -/
abbrev SparseArr := List (Option Nat)

/-- Reading a[i]: undefined (none) beyond the end or at a hole. -/
def arrGet : SparseArr → Nat → Option Nat
  | [], _ => none
  | x :: _, 0 => x
  | _ :: xs, n + 1 => arrGet xs n

/-- Writing a[i] = v: JS extends the array with holes when i is past the end. -/
def arrSet : SparseArr → Nat → Nat → SparseArr
  | [], 0, v => [some v]
  | [], n + 1, v => none :: arrSet [] n v
  | _ :: xs, 0, v => some v :: xs
  | x :: xs, n + 1, v => x :: arrSet xs n v

/-- Assigning to a.length in JS: truncate, or extend with holes. -/
def arrResize : SparseArr → Nat → SparseArr
  | _, 0 => []
  | [], n + 1 => none :: arrResize [] n
  | x :: xs, n + 1 => x :: arrResize xs n

theorem arrGet_replicate (n j : Nat) : arrGet (List.replicate n none) j = none := by
  induction n generalizing j with
  | zero => simp [List.replicate, arrGet]
  | succ n ih =>
    cases j with
    | zero => simp [List.replicate, arrGet]
    | succ j => simpa [List.replicate, arrGet] using ih j

theorem arrGet_arrSet_eq (a : SparseArr) (i v : Nat) :
    arrGet (arrSet a i v) i = some v := by
  induction a generalizing i with
  | nil =>
    induction i with
    | zero => rfl
    | succ i ih => simpa [arrSet, arrGet] using ih
  | cons x xs ih =>
    cases i with
    | zero => rfl
    | succ i => simpa [arrSet, arrGet] using ih i

theorem arrGet_arrSet_ne (a : SparseArr) (i v j : Nat) (h : j ≠ i) :
    arrGet (arrSet a i v) j = arrGet a j := by
  induction a generalizing i j with
  | nil =>
    induction i generalizing j with
    | zero => cases j with
      | zero => exact absurd rfl h
      | succ j => rfl
    | succ i ih =>
      cases j with
      | zero => rfl
      | succ j => simpa [arrSet, arrGet] using ih j (by omega)
  | cons x xs ih =>
    cases i with
    | zero => cases j with
      | zero => exact absurd rfl h
      | succ j => rfl
    | succ i =>
      cases j with
      | zero => rfl
      | succ j => simpa [arrSet, arrGet] using ih i j (by omega)

theorem arrSet_length (a : SparseArr) (i v : Nat) (h : i < a.length) :
    (arrSet a i v).length = a.length := by
  induction a generalizing i with
  | nil => simp at h
  | cons x xs ih =>
    cases i with
    | zero => rfl
    | succ i => simpa [arrSet] using ih i (by simpa using h)

/-- Scroll direction as tracked by updateScrollDirection. -/
inductive ScrollDir where
  | up : ScrollDir
  | down : ScrollDir
deriving DecidableEq

/-- The host viewport element: scrollTop, clientHeight, scrollHeight. -/
structure Viewport where
  scrollTop : Int
  clientHeight : Nat
  scrollHeight : Nat
deriving DecidableEq

/-- A half-open index range, as the source's renderRange / visibleRange
objects with fields start and end (end is a Lean keyword, hence stop). -/
structure RangeP where
  start : Nat
  stop : Nat
deriving DecidableEq

/-- The offset object: top and bottom padding in pixels. -/
structure Offsets where
  top : Nat
  bottom : Nat
deriving DecidableEq

/-- The mutable state of the component together with its configuration
props.  items is the length of the items array, none when the array itself
is undefined (reactive teardown); previousItemsLen the length of
previousItems at the last observation. -/
structure VLState where
  items : Option Nat
  previousItemsLen : Nat
  heightMap : SparseArr
  lockedHeights : SparseArr
  heightUnlockTimeouts : SparseArr
  nextTimerId : Nat
  viewport : Option Viewport
  renderRange : RangeP
  visibleRange : RangeP
  offset : Offsets
  lastScrollDirection : Option ScrollDir
  lastJumpToIndex : Option Nat
  skipNextScrollEvent : Bool
  previousDistance : Int
  isRecalculating : Bool
  loadMoreRequested : Bool
  defaultHeight : Nat
  renderDistance : Nat
  stickToBottom : Bool
  hasOnLoadMore : Bool
deriving DecidableEq

/-- The DOM oracle: whether the live list-row collection exists, the
clientHeight of the rendered row at a given position in that collection,
and the measured clientHeight of the element for a given item index during
an initialization pass (none: the element is missing after the tick). -/
structure Env where
  hasRowElements : Bool
  rowClientHeight : Nat → Option Nat
  measure : Nat → Option Nat

/-- isInitialized: renderRange.end is not 0. -/
def isInitialized (s : VLState) : Bool :=
  decide (s.renderRange.stop ≠ 0)

/-- getItemHeight: heightMap[index] || defaultHeight.  The JS test is
truthiness, so a hole, an out-of-bounds read and a stored 0 all fall back
to the default height. -/
def getItemHeight (hm : SparseArr) (defaultHeight : Nat) (index : Nat) : Nat :=
  match arrGet hm index with
  | none => defaultHeight
  | some h => if h = 0 then defaultHeight else h

/-- The loop of calculateHeightSum, structurally recursive on the number of
remaining indices. -/
def heightSumGo (hm : SparseArr) (d : Nat) : Nat → Nat → Nat
  | _, 0 => 0
  | a, rem + 1 => getItemHeight hm d a + heightSumGo hm d (a + 1) rem

/-- calculateHeightSum(startIndex, endIndex): sum of getItemHeight over
[startIndex, endIndex). -/
def calculateHeightSum (hm : SparseArr) (d : Nat) (startIndex endIndex : Nat) : Nat :=
  heightSumGo hm d startIndex (endIndex - startIndex)

/-- getDistanceFromBottom: 0 without a viewport, else
scrollHeight - scrollTop - clientHeight. -/
def getDistanceFromBottom (s : VLState) : Int :=
  match s.viewport with
  | none => 0
  | some vp => (vp.scrollHeight : Int) - vp.scrollTop - (vp.clientHeight : Int)

/-- LOAD_MORE_THRESHOLD. -/
def LOAD_MORE_THRESHOLD : Int := 300

/-- shouldTriggerLoadMore: false without viewport or onloadmore; true when
content fits in the viewport; else near-top test in stick-to-bottom mode,
near-bottom test otherwise. -/
def shouldTriggerLoadMore (s : VLState) : Bool :=
  match s.viewport with
  | none => false
  | some vp =>
    if s.hasOnLoadMore = false then false
    else if vp.scrollHeight ≤ vp.clientHeight then true
    else if s.stickToBottom then decide (vp.scrollTop < LOAD_MORE_THRESHOLD)
    else
      decide (0 ≤ getDistanceFromBottom s ∧ getDistanceFromBottom s < LOAD_MORE_THRESHOLD)

/-- lockRowHeight: a no-op when heightMap[index] is falsy (undefined or 0);
otherwise copies the cached height into lockedHeights, cancels the pending
unlock timer for that index and schedules a fresh one (timer ids come from
a counter; the pending-timer registry is the heightUnlockTimeouts array). -/
def lockRowHeight (s : VLState) (index : Nat) : VLState :=
  match arrGet s.heightMap index with
  | none => s
  | some cachedHeight =>
    if cachedHeight = 0 then s
    else
      { s with
        lockedHeights := arrSet s.lockedHeights index cachedHeight,
        heightUnlockTimeouts := arrSet s.heightUnlockTimeouts index s.nextTimerId,
        nextTimerId := s.nextTimerId + 1 }

/-- updateOffsets: top = height sum over [0, renderRange.start),
bottom = height sum over [renderRange.end, heightMap.length). -/
def updateOffsets (s : VLState) : VLState :=
  { s with
    offset :=
      ⟨calculateHeightSum s.heightMap s.defaultHeight 0 s.renderRange.start,
       calculateHeightSum s.heightMap s.defaultHeight s.renderRange.stop s.heightMap.length⟩ }

/-- The record returned by calculateVisibleRange.  Components are integers
because the loop variables start at the JS sentinel -1. -/
structure RangeResult where
  renderStart : Int
  renderEnd : Int
  visibleStart : Int
  visibleEnd : Int
deriving DecidableEq

/-- The per-index height used by the calculateVisibleRange walk: the live
rendered size of the row (when the live collection exists and the index is
at or past renderRange.start; a negative JS index reads undefined), with
the JS || fallback to getItemHeight on undefined or 0. -/
def cvrHeight (env : Env) (s : VLState) (i : Nat) : Nat :=
  let rowHeight : Option Nat :=
    if env.hasRowElements ∧ s.renderRange.start ≤ i then
      env.rowClientHeight (i - s.renderRange.start)
    else none
  match rowHeight with
  | none => getItemHeight s.heightMap s.defaultHeight i
  | some h => if h = 0 then getItemHeight s.heightMap s.defaultHeight i else h

/-- The for-loop of calculateVisibleRange.  The loop index is
i = count - remaining, so the structural fuel argument remaining counts the
indices still to visit; rs, vs, ve carry the -1 sentinels of the source. -/
def cvrLoop (h : Nat → Nat) (st vb : Int) (rd count : Nat) :
    Nat → Nat → Int → Int → Int → RangeResult
  | 0, _, rs, vs, ve =>
    ⟨if rs = -1 then (count : Int) - 1 else rs, (count : Int),
     if vs = -1 then (count : Int) - 1 else vs,
     if ve = -1 then (count : Int) else ve⟩
  | remaining + 1, acc, rs, vs, ve =>
    let i := count - (remaining + 1)
    let acc' := acc + h i
    let rs' := if rs = -1 ∧ st - (rd : Int) ≤ (acc' : Int) then (i : Int) else rs
    let vs' := if vs = -1 ∧ st + 1 ≤ (acc' : Int) then (i : Int) else vs
    let ve' := if ve = -1 ∧ vb < (acc' : Int) then (i : Int) + 1 else ve
    if vb + (rd : Int) < (acc' : Int) then ⟨rs', (i : Int) + 1, vs', ve'⟩
    else cvrLoop h st vb rd count remaining acc' rs' vs' ve'

/-- calculateVisibleRange: all-zero without items or viewport, else the
single accumulation pass over indices 0..count-1. -/
def calculateVisibleRange (env : Env) (s : VLState) : RangeResult :=
  match s.viewport with
  | none => ⟨0, 0, 0, 0⟩
  | some vp =>
    let count := s.items.getD 0
    if count = 0 then ⟨0, 0, 0, 0⟩
    else
      cvrLoop (cvrHeight env s) vp.scrollTop (vp.scrollTop + (vp.clientHeight : Int))
        s.renderDistance count count 0 (-1) (-1) (-1)

/-- The prepend branch of updateHeightMap: start from a fresh array of holes
of the new length and copy every present entry of the old map k slots to the
right, iterating the old indices in order. -/
def prependShift (hm : SparseArr) (prevLen newLen k : Nat) : SparseArr :=
  (List.range prevLen).foldl
    (fun acc i =>
      match arrGet hm i with
      | some v => arrSet acc (i + k) v
      | none => acc)
    (List.replicate newLen none)

/-- updateHeightMap(countDelta, headChanged, tailChanged): full replacement
resets heightMap and renderRange; a prepend shifts cached heights; otherwise
the array length is adjusted to the new item count. -/
def updateHeightMap (s : VLState) (countDelta : Int) (headChanged tailChanged : Bool) :
    VLState :=
  let newLen := s.items.getD 0
  if headChanged ∧ tailChanged ∧ 0 < s.previousItemsLen then
    { s with heightMap := List.replicate newLen none, renderRange := ⟨0, 0⟩ }
  else if headChanged ∧ tailChanged = false ∧ 0 < countDelta then
    { s with heightMap := prependShift s.heightMap s.previousItemsLen newLen countDelta.toNat }
  else
    { s with heightMap := arrResize s.heightMap newLen }

/-- Assigning viewport.scrollTop (a no-op without a viewport). -/
def setScrollTop (s : VLState) (t : Int) : VLState :=
  match s.viewport with
  | none => s
  | some vp => { s with viewport := some { vp with scrollTop := t } }

/-- viewport.scrollTop += delta, as scrollBy with instant behavior. -/
def scrollBy (s : VLState) (delta : Int) : VLState :=
  match s.viewport with
  | none => s
  | some vp => { s with viewport := some { vp with scrollTop := vp.scrollTop + delta } }

/-- scrollToBottom: scroll to scrollHeight - clientHeight. -/
def scrollToBottom (s : VLState) : VLState :=
  match s.viewport with
  | none => s
  | some vp => setScrollTop s ((vp.scrollHeight : Int) - (vp.clientHeight : Int))

/-- The guarded lock of the initialization loops:
if (heightMap[i] !== undefined) lockRowHeight(i). -/
def lockIfCached (s : VLState) (i : Nat) : VLState :=
  if (arrGet s.heightMap i).isSome then lockRowHeight s i else s

/-- renderRange.start = a. -/
def setRenderStart (s : VLState) (a : Nat) : VLState :=
  { s with renderRange := ⟨a, s.renderRange.stop⟩ }

/-- renderRange.end = e. -/
def setRenderStop (s : VLState) (e : Nat) : VLState :=
  { s with renderRange := ⟨s.renderRange.start, e⟩ }

/-- heightMap[i] = h. -/
def setHeightAt (s : VLState) (i h : Nat) : VLState :=
  { s with heightMap := arrSet s.heightMap i h }

/-- The first (downward) loop of initializeAt, visiting item indices
i = n - fuel up to n - 1: lock a pre-existing height, extend renderRange.end
to i + 1, measure the realized element (aborting with false when it is
missing after the tick), store the measurement, and stop once the realized
content covers clientHeight + renderDistance. -/
def initFwd (env : Env) (n d rd ch startingAt : Nat) :
    Nat → VLState → VLState × Bool
  | 0, s => (s, true)
  | remaining + 1, s =>
    let i := n - (remaining + 1)
    let s₂ := setRenderStop (lockIfCached s i) (i + 1)
    match env.measure i with
    | none => (s₂, false)
    | some hM =>
      let s₃ := setHeightAt s₂ i hM
      if ch + rd < calculateHeightSum s₃.heightMap d startingAt s₃.renderRange.stop then
        (s₃, true)
      else initFwd env n d rd ch startingAt remaining s₃

/-- The second (upward) loop of initializeAt, visiting i = fuel - 1 down
to 0: lock a pre-existing height, extend renderRange.start down to i,
measure the element at the top of the realized block, compensate scrollTop
by the difference to the locked-or-default height, store the measurement,
and stop once realized content covers clientHeight + 2 * renderDistance. -/
def initBwd (env : Env) (d rd ch : Nat) : Nat → VLState → VLState × Bool
  | 0, s => (s, true)
  | i + 1, s =>
    let s₂ := setRenderStart (lockIfCached s i) i
    match env.measure i with
    | none => (s₂, false)
    | some hM =>
      let base :=
        match arrGet s₂.lockedHeights i with
        | none => d
        | some l => if l = 0 then d else l
      let heightDiff : Int := (hM : Int) - (base : Int)
      let s₃ := if heightDiff ≠ 0 then scrollBy s₂ heightDiff else s₂
      let s₄ := setHeightAt s₃ i hM
      if ch + 2 * rd <
          calculateHeightSum s₄.heightMap d s₄.renderRange.start s₄.renderRange.stop then
        (s₄, true)
      else initBwd env d rd ch i s₄

/-- initializeAt(startingAt): no-op without a viewport; otherwise set
renderRange.start, pack forward then backward, and if initialized update the
offsets and pin scrollTop to the height sum above the starting index. -/
def initializeAt (env : Env) (s : VLState) (startingAt : Nat) : VLState :=
  match s.viewport with
  | none => s
  | some vp =>
    let n := s.items.getD 0
    let s₀ := setRenderStart s startingAt
    match initFwd env n s.defaultHeight s.renderDistance vp.clientHeight startingAt
        (n - startingAt) s₀ with
    | (s₁, false) => s₁
    | (s₁, true) =>
      match initBwd env s.defaultHeight s.renderDistance vp.clientHeight startingAt s₁ with
      | (s₂, false) => s₂
      | (s₂, true) =>
        if isInitialized s₂ = false then s₂
        else
          let s₃ := updateOffsets s₂
          match s₃.viewport with
          | none => s₃
          | some _ =>
            setScrollTop s₃
              ((calculateHeightSum s₃.heightMap s₃.defaultHeight 0 startingAt : Nat) : Int)

/-- jumpToIndex(index): validate the index against the (possibly vanished)
items array, then clear the scroll direction, arm the one-shot scroll
suppression, remember the jump target, lock the height at the target and
re-initialize rooted there. -/
def jumpToIndex (env : Env) (s : VLState) (index : Int) : VLState :=
  if s.items = none ∨ index < 0 ∨ (s.items.getD 0 : Int) - 1 < index then s
  else
    let s₁ :=
      { s with
        lastScrollDirection := none,
        skipNextScrollEvent := true,
        lastJumpToIndex := some index.toNat }
    let s₂ := lockRowHeight s₁ index.toNat
    initializeAt env s₂ index.toNat

/-- The two lock loops of recalculateRanges: lock every index of [a, b)
whose cached height is truthy. -/
def lockRangeHeights (s : VLState) (a b : Nat) : VLState :=
  (List.range' a (b - a)).foldl
    (fun st i =>
      match arrGet st.heightMap i with
      | none => st
      | some h => if h = 0 then st else lockRowHeight st i)
    s

/-- The tail of recalculateRanges, shared by the applied and unchanged
branches: publish the visible range when it moved, snap back to the bottom
when an exact bottom position drifted in stick-to-bottom mode, refresh
previousDistance, drop the reentrancy flag, and evaluate the load-more
trigger. -/
def finishRecalc (s : VLState) (r : RangeResult) (bottomDistance : Int) : VLState :=
  let s₁ :=
    if r.visibleStart ≠ (s.visibleRange.start : Int) ∨
        r.visibleEnd ≠ (s.visibleRange.stop : Int) then
      { s with visibleRange := ⟨r.visibleStart.toNat, r.visibleEnd.toNat⟩ }
    else s
  let s₂ :=
    if s₁.stickToBottom ∧ bottomDistance = 0 ∧ getDistanceFromBottom s₁ ≠ 0 then
      scrollToBottom s₁
    else s₁
  let s₃ := { s₂ with previousDistance := getDistanceFromBottom s₂, isRecalculating := false }
  if shouldTriggerLoadMore s₃ then { s₃ with loadMoreRequested := true } else s₃

/-- The body of recalculateRanges once a range-calculation result is in
hand: reject a degenerate changed range outright (preserving all state),
otherwise apply the new render range, recompute offsets and lock the
heights of rows entering the render range, then finish. -/
def recalcApply (s : VLState) (r : RangeResult) : VLState :=
  let oldStart := s.renderRange.start
  let oldEnd := s.renderRange.stop
  let bottomDistance := getDistanceFromBottom s
  if r.renderStart ≠ (oldStart : Int) ∨ r.renderEnd ≠ (oldEnd : Int) then
    if r.renderEnd ≤ r.renderStart ∧ 0 < s.items.getD 0 then s
    else
      let start := r.renderStart.toNat
      let stop := r.renderEnd.toNat
      let s₁ := { s with renderRange := ⟨start, stop⟩ }
      let s₂ := updateOffsets s₁
      let s₃ := lockRangeHeights s₂ start (min stop oldStart)
      let s₄ := lockRangeHeights s₃ (max start oldEnd) stop
      finishRecalc s₄ r bottomDistance
  else finishRecalc s r bottomDistance

/-- recalculateRanges: guarded by viewport and live-collection presence,
initialization, and the reentrancy flag; then one calculateVisibleRange
pass drives recalcApply. -/
def recalculateRanges (env : Env) (s : VLState) : VLState :=
  if s.viewport = none ∨ env.hasRowElements = false ∨ isInitialized s = false ∨
      s.isRecalculating then s
  else recalcApply s (calculateVisibleRange env s)

/-- Modelled from the spec: the HeightModel lookup as section 4.1 words it,
with the locked height (present and unexpired, i.e. still in the registry)
taking priority over the measured height, and the default last. -/
def specLockedFirstLookup (locked hm : SparseArr) (defaultHeight : Nat) (index : Nat) : Nat :=
  match arrGet locked index with
  | some h => h
  | none =>
    match arrGet hm index with
    | some h => h
    | none => defaultHeight

/-- Modelled from the amended claim: the lookup returns the measured height
when one is stored and nonzero, otherwise the default; locked heights are
not consulted. -/
def specMeasuredElseDefault (hm : SparseArr) (defaultHeight : Nat) (index : Nat) : Nat :=
  match arrGet hm index with
  | some h => if h ≠ 0 then h else defaultHeight
  | none => defaultHeight

theorem heightSumGo_add (hm : SparseArr) (d : Nat) :
    ∀ (m p a : Nat), heightSumGo hm d a (m + p) = heightSumGo hm d a m + heightSumGo hm d (a + m) p := by
  intro m
  induction m with
  | zero => intro p a; simp [heightSumGo]
  | succ m ih =>
    intro p a
    have h1 : m + 1 + p = (m + p) + 1 := by omega
    rw [h1]
    show getItemHeight hm d a + heightSumGo hm d (a + 1) (m + p) = _
    rw [ih p (a + 1)]
    have h2 : a + 1 + m = a + (m + 1) := by omega
    rw [h2]
    show _ = getItemHeight hm d a + heightSumGo hm d (a + 1) m + heightSumGo hm d (a + (m + 1)) p
    omega

theorem heightSum_split (hm : SparseArr) (d : Nat) (a b c : Nat)
    (hab : a ≤ b) (hbc : b ≤ c) :
    calculateHeightSum hm d a c = calculateHeightSum hm d a b + calculateHeightSum hm d b c := by
  unfold calculateHeightSum
  have h1 : c - a = (b - a) + (c - b) := by omega
  rw [h1, heightSumGo_add]
  have h2 : a + (b - a) = b := by omega
  rw [h2]

theorem heightSum_single (hm : SparseArr) (d i : Nat) :
    calculateHeightSum hm d i (i + 1) = getItemHeight hm d i := by
  unfold calculateHeightSum
  have h1 : i + 1 - i = 1 := by omega
  rw [h1]
  show getItemHeight hm d i + heightSumGo hm d (i + 1) 0 = _
  simp [heightSumGo]

/-- A concrete state used as the base of the witness instantiations. -/
def sampleBase : VLState where
  items := some 0
  previousItemsLen := 0
  heightMap := []
  lockedHeights := []
  heightUnlockTimeouts := []
  nextTimerId := 0
  viewport := none
  renderRange := ⟨0, 0⟩
  visibleRange := ⟨0, 0⟩
  offset := ⟨0, 0⟩
  lastScrollDirection := none
  lastJumpToIndex := none
  skipNextScrollEvent := false
  previousDistance := 0
  isRecalculating := false
  loadMoreRequested := false
  defaultHeight := 10
  renderDistance := 0
  stickToBottom := false
  hasOnLoadMore := false

/-- C2: After updateOffsets, with the height map sized to the item count and
a render range with start ≤ end ≤ length, top + (height sum over the render
range) + bottom equals the height sum over all of [0, length); moreover top
is the height sum over [0, start) and bottom the height sum over
[end, length). -/
theorem updateOffsets_total (s : VLState) (L : Nat)
    (hitems : s.items = some L) (hlen : s.heightMap.length = L)
    (h1 : s.renderRange.start ≤ s.renderRange.stop) (h2 : s.renderRange.stop ≤ L) :
    (updateOffsets s).offset.top +
        calculateHeightSum s.heightMap s.defaultHeight s.renderRange.start s.renderRange.stop +
        (updateOffsets s).offset.bottom =
      calculateHeightSum s.heightMap s.defaultHeight 0 L ∧
    (updateOffsets s).offset.top =
      calculateHeightSum s.heightMap s.defaultHeight 0 s.renderRange.start ∧
    (updateOffsets s).offset.bottom =
      calculateHeightSum s.heightMap s.defaultHeight s.renderRange.stop L := by
  unfold updateOffsets
  refine ⟨?_, by simp, by simp [hlen]⟩
  simp only [hlen]
  rw [heightSum_split s.heightMap s.defaultHeight 0 s.renderRange.start L (by omega) (by omega),
    heightSum_split s.heightMap s.defaultHeight s.renderRange.start s.renderRange.stop L h1 h2]
  omega

theorem updateOffsets_total_witness :
    (updateOffsets { sampleBase with
        items := some 2, heightMap := [some 5, none], renderRange := ⟨1, 2⟩ }).offset.top +
        calculateHeightSum [some 5, none] 10 1 2 +
        (updateOffsets { sampleBase with
          items := some 2, heightMap := [some 5, none], renderRange := ⟨1, 2⟩ }).offset.bottom =
      calculateHeightSum [some 5, none] 10 0 2 :=
  (updateOffsets_total
    { sampleBase with items := some 2, heightMap := [some 5, none], renderRange := ⟨1, 2⟩ }
    2 rfl (by decide) (by decide) (by decide)).1

/-- C6 counterexample: getItemHeight does not consult the locked heights.
With a lock of 100 at index 0 and a measured height of 50, the lookup
returns the measured 50, not the locked 100 demanded by the claim. -/
theorem getItemHeight_locked_cex :
    ¬ getItemHeight [some 50] 10 0 = specLockedFirstLookup [some 100] [some 50] 10 0 := by
  decide

/-- C6 (amended): getItemHeight returns the measured height when one is
stored and nonzero, otherwise the default height; locked heights are not
consulted by this lookup (they only pin the rendered row's CSS height). -/
theorem getItemHeight_measured_else_default (hm : SparseArr) (d i : Nat) :
    getItemHeight hm d i = specMeasuredElseDefault hm d i := by
  unfold getItemHeight specMeasuredElseDefault
  cases arrGet hm i with
  | none => rfl
  | some h =>
    by_cases h0 : h = 0 <;> simp [h0]

/-- C8: the load-more predicate is true exactly when a viewport and fetch
callback exist and either the content fits in the viewport, or stick-to-
bottom is on and scrollTop is under the 300px threshold, or stick-to-bottom
is off and the distance from the bottom is nonnegative and under the same
threshold. -/
theorem shouldTriggerLoadMore_iff (s : VLState) :
    shouldTriggerLoadMore s = true ↔
      ∃ vp, s.viewport = some vp ∧ s.hasOnLoadMore = true ∧
        (vp.scrollHeight ≤ vp.clientHeight ∨
         (s.stickToBottom = true ∧ vp.scrollTop < 300) ∨
         (s.stickToBottom = false ∧
          0 ≤ (vp.scrollHeight : Int) - vp.scrollTop - (vp.clientHeight : Int) ∧
          (vp.scrollHeight : Int) - vp.scrollTop - (vp.clientHeight : Int) < 300)) := by
  cases hv : s.viewport with
  | none => simp [shouldTriggerLoadMore, hv]
  | some vp =>
    cases hl : s.hasOnLoadMore with
    | false => simp [shouldTriggerLoadMore, hv, hl]
    | true =>
      cases hb : s.stickToBottom with
      | false =>
        simp only [shouldTriggerLoadMore, hv, hl, hb, getDistanceFromBottom,
          LOAD_MORE_THRESHOLD]
        by_cases hfit : vp.scrollHeight ≤ vp.clientHeight <;> simp [hfit] <;> omega
      | true =>
        simp only [shouldTriggerLoadMore, hv, hl, hb, LOAD_MORE_THRESHOLD]
        by_cases hfit : vp.scrollHeight ≤ vp.clientHeight <;> simp [hfit] <;> omega

/-- C9: a stored measured height of exactly 0 is falsy in the JS fallback,
so the lookup returns the default height, and the index contributes the
default height to every height sum that covers it. -/
theorem zero_measured_contributes_default (hm : SparseArr) (d i a b : Nat)
    (h0 : arrGet hm i = some 0) (hai : a ≤ i) (hib : i < b) :
    getItemHeight hm d i = d ∧
    calculateHeightSum hm d a b =
      calculateHeightSum hm d a i + d + calculateHeightSum hm d (i + 1) b := by
  have hg : getItemHeight hm d i = d := by
    unfold getItemHeight; rw [h0]; simp
  refine ⟨hg, ?_⟩
  rw [heightSum_split hm d a i b hai (by omega),
    heightSum_split hm d i (i + 1) b (by omega) (by omega),
    heightSum_single, hg]
  omega

theorem zero_measured_contributes_default_witness :
    getItemHeight [some 0] 7 0 = 7 ∧
    calculateHeightSum [some 0] 7 0 1 =
      calculateHeightSum [some 0] 7 0 0 + 7 + calculateHeightSum [some 0] 7 1 1 :=
  zero_measured_contributes_default [some 0] 7 0 0 1 (by decide) (by decide) (by decide)

/-- C10: when heightMap[i] is unset or 0, lockRowHeight(i) is a complete
no-op: the whole state, including lockedHeights and the unlock-timer
registry, is unchanged. -/
theorem lockRowHeight_uncached_noop (s : VLState) (i : Nat)
    (h : arrGet s.heightMap i = none ∨ arrGet s.heightMap i = some 0) :
    lockRowHeight s i = s := by
  unfold lockRowHeight
  rcases h with h | h <;> rw [h] <;> simp

theorem lockRowHeight_uncached_noop_witness :
    lockRowHeight { sampleBase with lockedHeights := [some 3] } 5 =
      { sampleBase with lockedHeights := [some 3] } :=
  lockRowHeight_uncached_noop { sampleBase with lockedHeights := [some 3] } 5
    (Or.inl (by decide))

theorem prependShift_succ (hm : SparseArr) (N L k : Nat) :
    prependShift hm (N + 1) L k =
      match arrGet hm N with
      | some v => arrSet (prependShift hm N L k) (N + k) v
      | none => prependShift hm N L k := by
  unfold prependShift
  rw [List.range_succ, List.foldl_append]
  cases h : arrGet hm N <;> simp [h]

theorem prependShift_length (hm : SparseArr) (N L k : Nat) (h : N + k ≤ L) :
    (prependShift hm N L k).length = L := by
  induction N with
  | zero => simp [prependShift]
  | succ N ih =>
    have hNk : N + k ≤ L := by omega
    rw [prependShift_succ]
    cases arrGet hm N with
    | none => exact ih hNk
    | some v =>
      rw [arrSet_length]
      · exact ih hNk
      · rw [ih hNk]; omega

theorem prependShift_get (hm : SparseArr) (N L k : Nat) (h : N + k ≤ L) (j : Nat) :
    arrGet (prependShift hm N L k) j =
      if k ≤ j ∧ j - k < N then arrGet hm (j - k) else none := by
  induction N with
  | zero =>
    rw [if_neg (by omega)]
    simpa [prependShift] using arrGet_replicate L j
  | succ N ih =>
    have hNk : N + k ≤ L := by omega
    rw [prependShift_succ]
    cases hN : arrGet hm N with
    | none =>
      rw [ih hNk]
      by_cases hc : k ≤ j ∧ j - k < N
      · rw [if_pos hc, if_pos (by omega)]
      · by_cases hc' : k ≤ j ∧ j - k < N + 1
        · have hjk : j - k = N := by omega
          rw [if_neg hc, if_pos hc', hjk, hN]
        · rw [if_neg hc, if_neg hc']
    | some v =>
      by_cases hj : j = N + k
      · subst hj
        rw [arrGet_arrSet_eq, if_pos (by omega)]
        have hjk : N + k - k = N := by omega
        rw [hjk, hN]
      · rw [arrGet_arrSet_ne _ _ _ _ hj, ih hNk]
        by_cases hc : k ≤ j ∧ j - k < N
        · rw [if_pos hc, if_pos (by omega)]
        · by_cases hc' : k ≤ j ∧ j - k < N + 1
          · exact absurd (by omega : j = N + k) hj
          · rw [if_neg hc, if_neg hc']

/-- C3: a sequence change classified as a prepend of k > 0 items shifts
every present entry of the height map right by k, leaves no other entry
set, and produces a map whose length is the new item count. -/
theorem updateHeightMap_prepend (s : VLState) (N k : Nat)
    (hprev : s.previousItemsLen = N) (hlen : s.heightMap.length = N)
    (hitems : s.items = some (N + k)) (hk : 0 < k) :
    (updateHeightMap s (k : Int) true false).heightMap.length = N + k ∧
    (∀ i, i < N →
      arrGet (updateHeightMap s (k : Int) true false).heightMap (i + k) =
        arrGet s.heightMap i) ∧
    (∀ j, j < k ∨ N + k ≤ j →
      arrGet (updateHeightMap s (k : Int) true false).heightMap j = none) := by
  have hbranch :
      (updateHeightMap s (k : Int) true false).heightMap =
        prependShift s.heightMap N (N + k) k := by
    unfold updateHeightMap
    rw [if_neg (by simp), if_pos (by simp [Int.natCast_pos.mpr hk])]
    simp [hitems, hprev]
  refine ⟨?_, ?_, ?_⟩
  · rw [hbranch]; exact prependShift_length s.heightMap N (N + k) k (by omega)
  · intro i hi
    rw [hbranch, prependShift_get s.heightMap N (N + k) k (by omega) (i + k),
      if_pos (by omega)]
    have : i + k - k = i := by omega
    rw [this]
  · intro j hj
    rw [hbranch, prependShift_get s.heightMap N (N + k) k (by omega) j,
      if_neg (by omega)]

theorem updateHeightMap_prepend_witness :
    (updateHeightMap
        { sampleBase with items := some 3, previousItemsLen := 2, heightMap := [some 5, none] }
        (1 : Int) true false).heightMap.length = 3 ∧
    arrGet (updateHeightMap
        { sampleBase with items := some 3, previousItemsLen := 2, heightMap := [some 5, none] }
        (1 : Int) true false).heightMap (0 + 1) = arrGet [some 5, none] 0 ∧
    arrGet (updateHeightMap
        { sampleBase with items := some 3, previousItemsLen := 2, heightMap := [some 5, none] }
        (1 : Int) true false).heightMap 0 = none := by
  have h := updateHeightMap_prepend
    { sampleBase with items := some 3, previousItemsLen := 2, heightMap := [some 5, none] }
    2 1 rfl (by decide) rfl (by decide)
  exact ⟨h.1, h.2.1 0 (by decide), h.2.2 0 (Or.inl (by decide))⟩

/-- A previously non-empty state carrying a live height lock, used to
exhibit that a full replacement does not discard locked heights. -/
def replaceSample : VLState :=
  { sampleBase with
    items := some 1
    previousItemsLen := 1
    heightMap := [some 7]
    lockedHeights := [some 42]
    renderRange := ⟨0, 1⟩ }

/-- C4 counterexample: a full replacement (headChanged and tailChanged,
previously non-empty) resets the height map and the render range but does
NOT discard the locked heights — the lock of 42 at index 0 survives, so the
claim's conjunction fails at this state. -/
theorem updateHeightMap_replace_cex :
    ¬ ((updateHeightMap replaceSample 0 true true).heightMap = List.replicate 1 none ∧
       (∀ j, arrGet (updateHeightMap replaceSample 0 true true).lockedHeights j = none) ∧
       (updateHeightMap replaceSample 0 true true).renderRange = ⟨0, 0⟩) :=
  fun h => absurd (h.2.1 0) (by decide)

/-- C4 (amended): a full replacement with a previously non-empty item list
resets the height map to the new sequence length with every entry unset and
resets the render range to the empty range so that isInitialized() returns
false (forcing re-initialization on the next pass); the locked heights are
left in place, expiring only through their own timers. -/
theorem updateHeightMap_fullReplace (s : VLState) (L : Nat) (cd : Int)
    (hitems : s.items = some L) (hprev : 0 < s.previousItemsLen) :
    (updateHeightMap s cd true true).heightMap = List.replicate L none ∧
    (∀ j, arrGet (updateHeightMap s cd true true).heightMap j = none) ∧
    (updateHeightMap s cd true true).renderRange = ⟨0, 0⟩ ∧
    isInitialized (updateHeightMap s cd true true) = false ∧
    (updateHeightMap s cd true true).lockedHeights = s.lockedHeights := by
  have hbranch :
      updateHeightMap s cd true true =
        { s with heightMap := List.replicate L none, renderRange := ⟨0, 0⟩ } := by
    unfold updateHeightMap
    rw [if_pos (by simp [hprev])]
    simp [hitems]
  rw [hbranch]
  exact ⟨rfl, fun j => arrGet_replicate L j, rfl, by simp [isInitialized], rfl⟩

theorem updateHeightMap_fullReplace_witness :
    (updateHeightMap replaceSample 0 true true).heightMap = List.replicate 1 none ∧
    (updateHeightMap replaceSample 0 true true).renderRange = ⟨0, 0⟩ ∧
    isInitialized (updateHeightMap replaceSample 0 true true) = false ∧
    (updateHeightMap replaceSample 0 true true).lockedHeights = [some 42] := by
  have h := updateHeightMap_fullReplace replaceSample 1 0 rfl (by decide)
  exact ⟨h.1, h.2.2.1, h.2.2.2.1, h.2.2.2.2⟩

/-- The boundary chain claimed for the range calculation. -/
def rangesChain (count : Nat) (r : RangeResult) : Prop :=
  0 ≤ r.renderStart ∧ r.renderStart ≤ r.visibleStart ∧ r.visibleStart ≤ r.visibleEnd ∧
    r.visibleEnd ≤ r.renderEnd ∧ r.renderEnd ≤ (count : Int)

instance (count : Nat) (r : RangeResult) : Decidable (rangesChain count r) := by
  unfold rangesChain; infer_instance

/-- Invariant of the calculateVisibleRange loop before visiting index i:
each boundary is either still the -1 sentinel or already placed, and the
placed boundaries are ordered, below i, and imply that the boundaries with
smaller thresholds are placed too. -/
def cvrInv (i : Nat) (rs vs ve : Int) : Prop :=
  (rs = -1 ∨ (0 ≤ rs ∧ rs < (i : Int))) ∧
    (vs = -1 ∨ (rs ≠ -1 ∧ rs ≤ vs ∧ vs < (i : Int))) ∧
    (ve = -1 ∨ (vs ≠ -1 ∧ vs < ve ∧ ve ≤ (i : Int)))

theorem cvrInv_step (i : Nat) (rs vs ve a st vb : Int) (rd : Nat)
    (hstvb : st ≤ vb) (hinv : cvrInv i rs vs ve) :
    cvrInv (i + 1)
      (if rs = -1 ∧ st - (rd : Int) ≤ a then (i : Int) else rs)
      (if vs = -1 ∧ st + 1 ≤ a then (i : Int) else vs)
      (if ve = -1 ∧ vb < a then (i : Int) + 1 else ve) := by
  unfold cvrInv at hinv ⊢
  split_ifs <;> omega

theorem cvrEarly_chain (i count : Nat) (rs vs ve a st vb : Int) (rd : Nat)
    (hstvb : st ≤ vb) (hic : i < count) (hinv : cvrInv i rs vs ve)
    (hearly : vb + (rd : Int) < a) :
    rangesChain count
      ⟨if rs = -1 ∧ st - (rd : Int) ≤ a then (i : Int) else rs, (i : Int) + 1,
       if vs = -1 ∧ st + 1 ≤ a then (i : Int) else vs,
       if ve = -1 ∧ vb < a then (i : Int) + 1 else ve⟩ := by
  unfold cvrInv at hinv
  unfold rangesChain
  dsimp only
  split_ifs <;> omega

theorem cvrFallback_chain (count : Nat) (rs vs ve : Int) (hc : 1 ≤ count)
    (hinv : cvrInv count rs vs ve) :
    rangesChain count
      ⟨if rs = -1 then (count : Int) - 1 else rs, (count : Int),
       if vs = -1 then (count : Int) - 1 else vs,
       if ve = -1 then (count : Int) else ve⟩ := by
  unfold cvrInv at hinv
  unfold rangesChain
  dsimp only
  split_ifs <;> omega

theorem cvrLoop_chain (h : Nat → Nat) (st vb : Int) (rd count : Nat)
    (hstvb : st ≤ vb) (hc : 1 ≤ count) :
    ∀ (remaining acc : Nat) (rs vs ve : Int), remaining ≤ count →
      cvrInv (count - remaining) rs vs ve →
      rangesChain count (cvrLoop h st vb rd count remaining acc rs vs ve) := by
  intro remaining
  induction remaining with
  | zero =>
    intro acc rs vs ve _ hinv
    rw [Nat.sub_zero] at hinv
    simpa only [cvrLoop] using cvrFallback_chain count rs vs ve hc hinv
  | succ remaining ih =>
    intro acc rs vs ve hrc hinv
    simp only [cvrLoop]
    have hic : count - (remaining + 1) < count := by omega
    by_cases hE :
        vb + (rd : Int) < ((acc + h (count - (remaining + 1)) : Nat) : Int)
    · rw [if_pos hE]
      exact cvrEarly_chain (count - (remaining + 1)) count rs vs ve _ st vb rd hstvb hic
        hinv hE
    · rw [if_neg hE]
      have hcc : count - remaining = count - (remaining + 1) + 1 := by omega
      refine ih _ _ _ _ (by omega) ?_
      rw [hcc]
      exact cvrInv_step (count - (remaining + 1)) rs vs ve _ st vb rd hstvb hinv

/-- C1: the four boundaries returned by calculateVisibleRange satisfy
0 ≤ renderStart ≤ visibleStart ≤ visibleEnd ≤ renderEnd ≤ items.length,
for every item count, non-negative scroll offset, viewport height, render
distance and height assignment. -/
theorem calculateVisibleRange_chain (env : Env) (s : VLState) (n : Nat) (vp : Viewport)
    (hn : s.items = some n) (hvp : s.viewport = some vp) (hst : 0 ≤ vp.scrollTop) :
    rangesChain n (calculateVisibleRange env s) := by
  unfold calculateVisibleRange
  rw [hvp]
  simp only [hn, Option.getD_some]
  by_cases h0 : n = 0
  · subst h0
    rw [if_pos rfl]
    unfold rangesChain
    dsimp only
    omega
  · rw [if_neg h0]
    refine cvrLoop_chain (cvrHeight env s) vp.scrollTop
      (vp.scrollTop + (vp.clientHeight : Int)) s.renderDistance n (by omega) (by omega)
      n 0 (-1) (-1) (-1) (by omega) ?_
    exact ⟨Or.inl rfl, Or.inl rfl, Or.inl rfl⟩

/-- A DOM oracle without a live row collection and without measurable
elements, used by witnesses that only exercise cached heights. -/
def bareEnv : Env where
  hasRowElements := false
  rowClientHeight := fun _ => none
  measure := fun _ => none

theorem calculateVisibleRange_chain_witness :
    rangesChain 3
      (calculateVisibleRange bareEnv
        { sampleBase with items := some 3, viewport := some ⟨0, 25, 30⟩ }) :=
  calculateVisibleRange_chain bareEnv
    { sampleBase with items := some 3, viewport := some ⟨0, 25, 30⟩ }
    3 ⟨0, 25, 30⟩ rfl rfl (by decide)

theorem scrollToBottom_renderRange (s : VLState) :
    (scrollToBottom s).renderRange = s.renderRange := by
  unfold scrollToBottom setScrollTop
  cases h : s.viewport <;> simp [h]

theorem finishRecalc_renderRange (s : VLState) (r : RangeResult) (bd : Int) :
    (finishRecalc s r bd).renderRange = s.renderRange := by
  unfold finishRecalc
  dsimp only
  split_ifs <;> simp_all [scrollToBottom_renderRange]

/-- C5: when the range calculation yields renderEnd ≤ renderStart for an
initialized, non-empty list, the recalculation pass preserves the stored
render range — the degenerate result is never applied. -/
theorem recalculateRanges_degenerate (env : Env) (s : VLState) (r : RangeResult) (n : Nat)
    (hn : s.items = some n) (h0 : 0 < n) (hdeg : r.renderEnd ≤ r.renderStart)
    (hr : calculateVisibleRange env s = r) :
    (recalcApply s r).renderRange = s.renderRange ∧
    (recalculateRanges env s).renderRange = s.renderRange := by
  have happ : (recalcApply s r).renderRange = s.renderRange := by
    unfold recalcApply
    dsimp only
    by_cases hch :
        r.renderStart ≠ (s.renderRange.start : Int) ∨ r.renderEnd ≠ (s.renderRange.stop : Int)
    · rw [if_pos hch, if_pos ⟨hdeg, by simp [hn, h0]⟩]
    · rw [if_neg hch]
      exact finishRecalc_renderRange s r _
  refine ⟨happ, ?_⟩
  unfold recalculateRanges
  split_ifs with hguard
  · rfl
  · rw [hr]
    exact happ

theorem recalculateRanges_degenerate_witness :
    (recalcApply { sampleBase with items := some 1, renderRange := ⟨0, 5⟩ }
        ⟨0, 0, 0, 0⟩).renderRange =
      ({ sampleBase with items := some 1, renderRange := ⟨0, 5⟩ } : VLState).renderRange ∧
    (recalculateRanges bareEnv
        { sampleBase with items := some 1, renderRange := ⟨0, 5⟩ }).renderRange =
      ({ sampleBase with items := some 1, renderRange := ⟨0, 5⟩ } : VLState).renderRange :=
  recalculateRanges_degenerate bareEnv
    { sampleBase with items := some 1, renderRange := ⟨0, 5⟩ }
    ⟨0, 0, 0, 0⟩ 1 rfl (by decide) (by decide) (by decide)

theorem lockRowHeight_effects (s : VLState) (i : Nat) :
    (lockRowHeight s i).items = s.items ∧
    (lockRowHeight s i).heightMap = s.heightMap ∧
    (lockRowHeight s i).viewport = s.viewport ∧
    (lockRowHeight s i).renderRange = s.renderRange ∧
    (lockRowHeight s i).lastScrollDirection = s.lastScrollDirection ∧
    (lockRowHeight s i).skipNextScrollEvent = s.skipNextScrollEvent ∧
    (lockRowHeight s i).lastJumpToIndex = s.lastJumpToIndex := by
  unfold lockRowHeight
  cases arrGet s.heightMap i with
  | none => exact ⟨rfl, rfl, rfl, rfl, rfl, rfl, rfl⟩
  | some h =>
    dsimp only
    split_ifs <;> exact ⟨rfl, rfl, rfl, rfl, rfl, rfl, rfl⟩

theorem lockRowHeight_locked_hit (s : VLState) (i hv : Nat)
    (hh : arrGet s.heightMap i = some hv) (h0 : hv ≠ 0) :
    arrGet (lockRowHeight s i).lockedHeights i = some hv := by
  unfold lockRowHeight
  rw [hh]
  dsimp only
  rw [if_neg h0]
  exact arrGet_arrSet_eq s.lockedHeights i hv

theorem lockRowHeight_locked_other (s : VLState) (i j : Nat) (hij : j ≠ i) :
    arrGet (lockRowHeight s i).lockedHeights j = arrGet s.lockedHeights j := by
  unfold lockRowHeight
  cases arrGet s.heightMap i with
  | none => rfl
  | some h =>
    dsimp only
    split_ifs with h0
    · rfl
    · exact arrGet_arrSet_ne s.lockedHeights i h j hij

theorem lockIfCached_effects (s : VLState) (i : Nat) :
    (lockIfCached s i).items = s.items ∧
    (lockIfCached s i).heightMap = s.heightMap ∧
    (lockIfCached s i).viewport = s.viewport ∧
    (lockIfCached s i).renderRange = s.renderRange ∧
    (lockIfCached s i).lastScrollDirection = s.lastScrollDirection ∧
    (lockIfCached s i).skipNextScrollEvent = s.skipNextScrollEvent ∧
    (lockIfCached s i).lastJumpToIndex = s.lastJumpToIndex := by
  unfold lockIfCached
  split_ifs
  · exact lockRowHeight_effects s i
  · exact ⟨rfl, rfl, rfl, rfl, rfl, rfl, rfl⟩

theorem lockIfCached_locked_hit (s : VLState) (i hv : Nat)
    (hh : arrGet s.heightMap i = some hv) (h0 : hv ≠ 0) :
    arrGet (lockIfCached s i).lockedHeights i = some hv := by
  unfold lockIfCached
  rw [if_pos (by rw [hh]; rfl)]
  exact lockRowHeight_locked_hit s i hv hh h0

theorem lockIfCached_locked_other (s : VLState) (i j : Nat) (hij : j ≠ i) :
    arrGet (lockIfCached s i).lockedHeights j = arrGet s.lockedHeights j := by
  unfold lockIfCached
  split_ifs
  · exact lockRowHeight_locked_other s i j hij
  · rfl

theorem scrollBy_effects (s : VLState) (delta : Int) :
    (scrollBy s delta).items = s.items ∧
    (scrollBy s delta).heightMap = s.heightMap ∧
    (scrollBy s delta).lockedHeights = s.lockedHeights ∧
    (scrollBy s delta).renderRange = s.renderRange ∧
    (scrollBy s delta).lastScrollDirection = s.lastScrollDirection ∧
    (scrollBy s delta).skipNextScrollEvent = s.skipNextScrollEvent ∧
    (scrollBy s delta).lastJumpToIndex = s.lastJumpToIndex ∧
    (scrollBy s delta).viewport.isSome = s.viewport.isSome := by
  unfold scrollBy
  cases h : s.viewport <;> simp [h]

theorem initFwd_spec (env : Env) (n d rd ch sa : Nat) :
    ∀ (fuel : Nat) (s : VLState), fuel ≤ n →
      (initFwd env n d rd ch sa fuel s).1.items = s.items ∧
      (initFwd env n d rd ch sa fuel s).1.viewport = s.viewport ∧
      (initFwd env n d rd ch sa fuel s).1.lastScrollDirection = s.lastScrollDirection ∧
      (initFwd env n d rd ch sa fuel s).1.skipNextScrollEvent = s.skipNextScrollEvent ∧
      (initFwd env n d rd ch sa fuel s).1.lastJumpToIndex = s.lastJumpToIndex ∧
      (initFwd env n d rd ch sa fuel s).1.renderRange.start = s.renderRange.start ∧
      (fuel = 0 → (initFwd env n d rd ch sa fuel s).1 = s) ∧
      (0 < fuel → n - fuel + 1 ≤ (initFwd env n d rd ch sa fuel s).1.renderRange.stop) ∧
      (∀ j, j < n - fuel →
        arrGet (initFwd env n d rd ch sa fuel s).1.lockedHeights j =
          arrGet s.lockedHeights j) ∧
      (∀ hv, 0 < fuel → arrGet s.heightMap (n - fuel) = some hv → hv ≠ 0 →
        arrGet (initFwd env n d rd ch sa fuel s).1.lockedHeights (n - fuel) = some hv) := by
  intro fuel
  induction fuel with
  | zero =>
    intro s _
    refine ⟨rfl, rfl, rfl, rfl, rfl, rfl, fun _ => rfl, ?_, fun j _ => rfl, ?_⟩
    · intro h; omega
    · intro hv h; omega
  | succ fuel ih =>
    intro s hfn
    obtain ⟨hLitems, hLhm, hLvp, hLrr, hLdir, hLskip, hLjump⟩ :=
      lockIfCached_effects s (n - (fuel + 1))
    simp only [initFwd]
    cases hms : env.measure (n - (fuel + 1)) with
    | none =>
      dsimp only [setRenderStop]
      refine ⟨hLitems, hLvp, hLdir, hLskip, hLjump, by rw [hLrr], ?_, ?_, ?_, ?_⟩
      · intro h; simp at h
      · intro _; exact Nat.le_refl _
      · intro j hj
        exact lockIfCached_locked_other s (n - (fuel + 1)) j (by omega)
      · intro hv _ hh h0
        exact lockIfCached_locked_hit s (n - (fuel + 1)) hv hh h0
    | some hM =>
      dsimp only
      split_ifs with hbreak
      · dsimp only [setHeightAt, setRenderStop]
        refine ⟨hLitems, hLvp, hLdir, hLskip, hLjump, by rw [hLrr], ?_, ?_, ?_, ?_⟩
        · intro h; simp at h
        · intro _; exact Nat.le_refl _
        · intro j hj
          exact lockIfCached_locked_other s (n - (fuel + 1)) j (by omega)
        · intro hv _ hh h0
          exact lockIfCached_locked_hit s (n - (fuel + 1)) hv hh h0
      · obtain ⟨h1, h2, h3, h4, h5, h6, h7, h8, h9, _⟩ :=
          ih (setHeightAt (setRenderStop (lockIfCached s (n - (fuel + 1)))
            (n - (fuel + 1) + 1)) (n - (fuel + 1)) hM) (by omega)
        refine ⟨by rw [h1]; exact hLitems, by rw [h2]; exact hLvp, by rw [h3]; exact hLdir,
          by rw [h4]; exact hLskip, by rw [h5]; exact hLjump,
          by rw [h6]; dsimp only [setHeightAt, setRenderStop]; rw [hLrr], ?_, ?_, ?_, ?_⟩
        · intro h; simp at h
        · intro _
          rcases Nat.eq_zero_or_pos fuel with hf0 | hfpos
          · rw [h7 hf0]
            dsimp only [setHeightAt, setRenderStop]
            exact Nat.le_refl _
          · have h8' := h8 hfpos
            omega
        · intro j hj
          rw [h9 j (by omega)]
          dsimp only [setHeightAt, setRenderStop]
          exact lockIfCached_locked_other s (n - (fuel + 1)) j (by omega)
        · intro hv _ hh h0
          rw [h9 (n - (fuel + 1)) (by omega)]
          dsimp only [setHeightAt, setRenderStop]
          exact lockIfCached_locked_hit s (n - (fuel + 1)) hv hh h0

theorem scrollBy_items (s : VLState) (delta : Int) : (scrollBy s delta).items = s.items :=
  (scrollBy_effects s delta).1

theorem scrollBy_lockedHeights (s : VLState) (delta : Int) :
    (scrollBy s delta).lockedHeights = s.lockedHeights :=
  (scrollBy_effects s delta).2.2.1

theorem scrollBy_renderRange (s : VLState) (delta : Int) :
    (scrollBy s delta).renderRange = s.renderRange :=
  (scrollBy_effects s delta).2.2.2.1

theorem scrollBy_dir (s : VLState) (delta : Int) :
    (scrollBy s delta).lastScrollDirection = s.lastScrollDirection :=
  (scrollBy_effects s delta).2.2.2.2.1

theorem scrollBy_skip (s : VLState) (delta : Int) :
    (scrollBy s delta).skipNextScrollEvent = s.skipNextScrollEvent :=
  (scrollBy_effects s delta).2.2.2.2.2.1

theorem scrollBy_jump (s : VLState) (delta : Int) :
    (scrollBy s delta).lastJumpToIndex = s.lastJumpToIndex :=
  (scrollBy_effects s delta).2.2.2.2.2.2.1

theorem scrollBy_vpIsSome (s : VLState) (delta : Int) :
    (scrollBy s delta).viewport.isSome = s.viewport.isSome :=
  (scrollBy_effects s delta).2.2.2.2.2.2.2

theorem initBwd_spec (env : Env) (d rd ch : Nat) :
    ∀ (fuel : Nat) (s : VLState),
      (initBwd env d rd ch fuel s).1.items = s.items ∧
      (initBwd env d rd ch fuel s).1.lastScrollDirection = s.lastScrollDirection ∧
      (initBwd env d rd ch fuel s).1.skipNextScrollEvent = s.skipNextScrollEvent ∧
      (initBwd env d rd ch fuel s).1.lastJumpToIndex = s.lastJumpToIndex ∧
      (initBwd env d rd ch fuel s).1.renderRange.stop = s.renderRange.stop ∧
      ((initBwd env d rd ch fuel s).1.renderRange.start = s.renderRange.start ∨
        (initBwd env d rd ch fuel s).1.renderRange.start < fuel) ∧
      (∀ j, fuel ≤ j →
        arrGet (initBwd env d rd ch fuel s).1.lockedHeights j = arrGet s.lockedHeights j) ∧
      (initBwd env d rd ch fuel s).1.viewport.isSome = s.viewport.isSome := by
  intro fuel
  induction fuel with
  | zero =>
    intro s
    exact ⟨rfl, rfl, rfl, rfl, rfl, Or.inl rfl, fun j _ => rfl, rfl⟩
  | succ i ih =>
    intro s
    obtain ⟨hLitems, hLhm, hLvp, hLrr, hLdir, hLskip, hLjump⟩ := lockIfCached_effects s i
    have key : ∀ t : VLState, t.items = s.items →
        t.lastScrollDirection = s.lastScrollDirection →
        t.skipNextScrollEvent = s.skipNextScrollEvent →
        t.lastJumpToIndex = s.lastJumpToIndex →
        t.renderRange.stop = s.renderRange.stop →
        t.renderRange.start = i →
        (∀ j, i + 1 ≤ j → arrGet t.lockedHeights j = arrGet s.lockedHeights j) →
        t.viewport.isSome = s.viewport.isSome →
        (initBwd env d rd ch i t).1.items = s.items ∧
        (initBwd env d rd ch i t).1.lastScrollDirection = s.lastScrollDirection ∧
        (initBwd env d rd ch i t).1.skipNextScrollEvent = s.skipNextScrollEvent ∧
        (initBwd env d rd ch i t).1.lastJumpToIndex = s.lastJumpToIndex ∧
        (initBwd env d rd ch i t).1.renderRange.stop = s.renderRange.stop ∧
        ((initBwd env d rd ch i t).1.renderRange.start = s.renderRange.start ∨
          (initBwd env d rd ch i t).1.renderRange.start < i + 1) ∧
        (∀ j, i + 1 ≤ j →
          arrGet (initBwd env d rd ch i t).1.lockedHeights j = arrGet s.lockedHeights j) ∧
        (initBwd env d rd ch i t).1.viewport.isSome = s.viewport.isSome := by
      intro t ht1 ht2 ht3 ht4 ht5 ht6 ht7 ht8
      obtain ⟨g1, g2, g3, g4, g5, g6, g7, g8⟩ := ih t
      refine ⟨g1.trans ht1, g2.trans ht2, g3.trans ht3, g4.trans ht4, g5.trans ht5, ?_, ?_,
        g8.trans ht8⟩
      · rcases g6 with g6 | g6
        · exact Or.inr (by rw [g6, ht6]; exact Nat.lt_succ_self i)
        · exact Or.inr (by omega)
      · intro j hj
        exact (g7 j (by omega)).trans (ht7 j hj)
    simp only [initBwd]
    cases hms : env.measure i with
    | none =>
      dsimp only [setRenderStart]
      refine ⟨hLitems, hLdir, hLskip, hLjump, by rw [hLrr], Or.inr (Nat.lt_succ_self i), ?_,
        by rw [hLvp]⟩
      intro j hj
      exact lockIfCached_locked_other s i j (by omega)
    | some hM =>
      dsimp only [setHeightAt, setRenderStart]
      split_ifs with hd hb hb2
      · refine ⟨?_, ?_, ?_, ?_, ?_, ?_, ?_, ?_⟩
        · simp only [scrollBy_items]; exact hLitems
        · simp only [scrollBy_dir]; exact hLdir
        · simp only [scrollBy_skip]; exact hLskip
        · simp only [scrollBy_jump]; exact hLjump
        · simp only [scrollBy_renderRange]; exact congrArg RangeP.stop hLrr
        · refine Or.inr ?_
          simp only [scrollBy_renderRange]
          omega
        · intro j hj
          simp only [scrollBy_lockedHeights]
          exact lockIfCached_locked_other s i j (by omega)
        · simp only [scrollBy_vpIsSome]; exact congrArg Option.isSome hLvp
      · refine key _ ?_ ?_ ?_ ?_ ?_ ?_ ?_ ?_
        · simp only [scrollBy_items]; exact hLitems
        · simp only [scrollBy_dir]; exact hLdir
        · simp only [scrollBy_skip]; exact hLskip
        · simp only [scrollBy_jump]; exact hLjump
        · simp only [scrollBy_renderRange]; exact congrArg RangeP.stop hLrr
        · simp only [scrollBy_renderRange]
        · intro j hj
          simp only [scrollBy_lockedHeights]
          exact lockIfCached_locked_other s i j (by omega)
        · simp only [scrollBy_vpIsSome]; exact congrArg Option.isSome hLvp
      · refine ⟨hLitems, hLdir, hLskip, hLjump, ?_, Or.inr (Nat.lt_succ_self i), ?_, ?_⟩
        · show (lockIfCached s i).renderRange.stop = s.renderRange.stop
          exact congrArg RangeP.stop hLrr
        · intro j hj
          exact lockIfCached_locked_other s i j (by omega)
        · show (lockIfCached s i).viewport.isSome = s.viewport.isSome
          exact congrArg Option.isSome hLvp
      · refine key _ hLitems hLdir hLskip hLjump ?_ ?_ ?_ ?_
        · show (lockIfCached s i).renderRange.stop = s.renderRange.stop
          exact congrArg RangeP.stop hLrr
        · rfl
        · intro j hj
          exact lockIfCached_locked_other s i j (by omega)
        · show (lockIfCached s i).viewport.isSome = s.viewport.isSome
          exact congrArg Option.isSome hLvp

theorem setScrollTop_effects (s : VLState) (t : Int) :
    (setScrollTop s t).renderRange = s.renderRange ∧
    (setScrollTop s t).lockedHeights = s.lockedHeights ∧
    (setScrollTop s t).lastScrollDirection = s.lastScrollDirection ∧
    (setScrollTop s t).skipNextScrollEvent = s.skipNextScrollEvent := by
  unfold setScrollTop
  cases h : s.viewport <;> simp [h]

theorem initializeAt_spec (env : Env) (s : VLState) (a n : Nat) (vp : Viewport)
    (hn : s.items = some n) (hvp : s.viewport = some vp) (ha : a < n) :
    (initializeAt env s a).lastScrollDirection = s.lastScrollDirection ∧
    (initializeAt env s a).skipNextScrollEvent = s.skipNextScrollEvent ∧
    (initializeAt env s a).renderRange.start ≤ a ∧
    a < (initializeAt env s a).renderRange.stop ∧
    (∀ hv, arrGet s.heightMap a = some hv → hv ≠ 0 →
      arrGet (initializeAt env s a).lockedHeights a = some hv) := by
  unfold initializeAt
  rw [hvp]
  dsimp only
  simp only [hn, Option.getD_some]
  obtain ⟨f1, f2, f3, f4, f5, f6, f7, f8, f9, f10⟩ :=
    initFwd_spec env n s.defaultHeight s.renderDistance vp.clientHeight a (n - a)
      (setRenderStart s a) (by omega)
  rcases hfw : initFwd env n s.defaultHeight s.renderDistance vp.clientHeight a (n - a)
      (setRenderStart s a) with ⟨s₁, b₁⟩
  rw [hfw] at f1 f2 f3 f4 f5 f6 f8 f9 f10
  dsimp only at f1 f2 f3 f4 f5 f6 f8 f9 f10
  have hstop₁ : a + 1 ≤ s₁.renderRange.stop := by
    have := f8 (by omega)
    omega
  have hstart₁ : s₁.renderRange.start = a := f6
  have hidx : n - (n - a) = a := by omega
  rw [hidx] at f10
  cases b₁ with
  | false =>
    dsimp only
    refine ⟨f3, f4, le_of_eq hstart₁, by omega, ?_⟩
    intro hv hh h0
    exact f10 hv (by omega) hh h0
  | true =>
    dsimp only
    obtain ⟨g1, g2, g3, g4, g5, g6, g7, g8⟩ :=
      initBwd_spec env s.defaultHeight s.renderDistance vp.clientHeight a s₁
    rcases hbw : initBwd env s.defaultHeight s.renderDistance vp.clientHeight a s₁
      with ⟨s₂, b₂⟩
    rw [hbw] at g1 g2 g3 g4 g5 g6 g7 g8
    dsimp only at g1 g2 g3 g4 g5 g6 g7 g8
    have hstop₂ : a + 1 ≤ s₂.renderRange.stop := by rw [g5]; exact hstop₁
    have hstart₂ : s₂.renderRange.start ≤ a := by
      rcases g6 with g6 | g6
      · rw [g6, hstart₁]
      · omega
    have hlock₂ : ∀ hv, arrGet s.heightMap a = some hv → hv ≠ 0 →
        arrGet s₂.lockedHeights a = some hv := by
      intro hv hh h0
      rw [g7 a (Nat.le_refl a)]
      exact f10 hv (by omega) hh h0
    cases b₂ with
    | false =>
      dsimp only
      exact ⟨g2.trans f3, g3.trans f4, hstart₂, by omega, hlock₂⟩
    | true =>
      dsimp only
      have hinit : isInitialized s₂ = true := by
        unfold isInitialized
        simp only [decide_eq_true_eq]
        omega
      rw [hinit, if_neg (by simp)]
      have hvpsome : s₂.viewport.isSome = true := by
        rw [g8, f2]
        show s.viewport.isSome = true
        rw [hvp]
        rfl
      cases hv2 : s₂.viewport with
      | none => rw [hv2] at hvpsome; simp at hvpsome
      | some vp₂ =>
        have hv3 : (updateOffsets s₂).viewport = some vp₂ := hv2
        rw [hv3]
        dsimp only
        obtain ⟨t1, t2, t3, t4⟩ := setScrollTop_effects (updateOffsets s₂)
          ((calculateHeightSum (updateOffsets s₂).heightMap
            (updateOffsets s₂).defaultHeight 0 a : Nat) : Int)
        constructor
        · rw [t3]
          exact g2.trans f3
        constructor
        · rw [t4]
          exact g3.trans f4
        constructor
        · rw [congrArg RangeP.start t1]
          exact hstart₂
        constructor
        · rw [congrArg RangeP.stop t1]
          show a < s₂.renderRange.stop
          omega
        · intro hv hh h0
          rw [t2]
          exact hlock₂ hv hh h0

/-- C7: jumpToIndex validates 0 ≤ i < items.length.  When the items array is
absent or the index is out of range it returns with the whole state
unchanged; for an in-range index (with a live viewport) it clears the
tracked scroll direction, arms the one-shot scroll suppression, locks the
cached height at the target, and re-initializes the render range rooted at
the target index. -/
theorem jumpToIndex_spec (env : Env) (s : VLState) (index : Int) :
    (s.items = none → jumpToIndex env s index = s) ∧
    (∀ n, s.items = some n → (index < 0 ∨ (n : Int) ≤ index) →
      jumpToIndex env s index = s) ∧
    (∀ n vp, s.items = some n → s.viewport = some vp → 0 ≤ index → index < (n : Int) →
      (jumpToIndex env s index).lastScrollDirection = none ∧
      (jumpToIndex env s index).skipNextScrollEvent = true ∧
      (jumpToIndex env s index).renderRange.start ≤ index.toNat ∧
      index.toNat < (jumpToIndex env s index).renderRange.stop ∧
      (∀ hv, arrGet s.heightMap index.toNat = some hv → hv ≠ 0 →
        arrGet (jumpToIndex env s index).lockedHeights index.toNat = some hv)) := by
  refine ⟨?_, ?_, ?_⟩
  · intro h
    unfold jumpToIndex
    rw [if_pos (Or.inl h)]
  · intro n hn hout
    unfold jumpToIndex
    refine if_pos (Or.inr ?_)
    rcases hout with hout | hout
    · exact Or.inl hout
    · refine Or.inr ?_
      rw [hn]
      show (n : Int) - 1 < index
      omega
  · intro n vp hn hvp h0 hlt
    unfold jumpToIndex
    have hcond : ¬(s.items = none ∨ index < 0 ∨ (s.items.getD 0 : Int) - 1 < index) := by
      push_neg
      refine ⟨by rw [hn]; exact fun h => Option.noConfusion h, by omega, ?_⟩
      rw [hn]
      show index ≤ (n : Int) - 1
      omega
    rw [if_neg hcond]
    dsimp only
    obtain ⟨l1, l2, l3, l4, l5, l6, l7⟩ :=
      lockRowHeight_effects { s with lastScrollDirection := none, skipNextScrollEvent := true, lastJumpToIndex := some index.toNat } index.toNat
    obtain ⟨i1, i2, i3, i4, i5⟩ :=
      initializeAt_spec env
        (lockRowHeight { s with lastScrollDirection := none, skipNextScrollEvent := true, lastJumpToIndex := some index.toNat } index.toNat)
        index.toNat n vp (l1.trans hn) (l3.trans hvp) (by omega)
    refine ⟨i1.trans l5, i2.trans l6, i3, i4, ?_⟩
    intro hv hh h0'
    refine i5 hv ?_ h0'
    rw [l2]
    exact hh

/-- A DOM oracle whose elements all measure 40px, for the jump witness. -/
def jumpEnv : Env where
  hasRowElements := true
  rowClientHeight := fun _ => none
  measure := fun _ => some 40

/-- A two-item state with a cached height at index 0 and a live viewport. -/
def jumpState : VLState :=
  { sampleBase with
    items := some 2
    heightMap := [some 30, none]
    viewport := some ⟨0, 50, 60⟩ }

theorem jumpToIndex_spec_witness :
    (jumpToIndex jumpEnv jumpState 0).lastScrollDirection = none ∧
    (jumpToIndex jumpEnv jumpState 0).skipNextScrollEvent = true ∧
    (jumpToIndex jumpEnv jumpState 0).renderRange.start ≤ (0 : Int).toNat ∧
    (0 : Int).toNat < (jumpToIndex jumpEnv jumpState 0).renderRange.stop ∧
    arrGet (jumpToIndex jumpEnv jumpState 0).lockedHeights (0 : Int).toNat = some 30 := by
  have h := (jumpToIndex_spec jumpEnv jumpState 0).2.2 2 ⟨0, 50, 60⟩ rfl rfl
    (by decide) (by decide)
  exact ⟨h.1, h.2.1, h.2.2.1, h.2.2.2.1, h.2.2.2.2 30 (by decide) (by decide)⟩

end VirtualList
